import Mathlib

/-!
Verification of the creational-pattern examples of the Design-Patterns
repository: the abstract-factory furniture-shop simulator
(`FurnitureShopSimulator.cpp`) and the factory-method logistics example
(`Logistics.cpp`).

The C++ class hierarchies are shallowly embedded: each abstract product
class (`Chair`, `Sofa`, `CoffeeTable`) has exactly three concrete
subclasses, one per style variant, and none of the subclasses carries any
data member, so an object is fully determined by its dynamic type.  We
model the dynamic type by a `Variant` tag and each virtual call by a match
on that tag, transcribing the literal strings returned by each override.
Object identity and allocation (`new` / `delete` in the client code) are
modelled separately by an explicit store, further below.
-/

/-- The three style variants of the furniture family:
`ModernX`, `VictorianX`, `ArtDecoX` concrete classes. -/
inductive Variant where
  | modern
  | victorian
  | artDeco
deriving DecidableEq, Repr

/-- Abstract product `Chair`: an object of the hierarchy is determined by
the variant of its concrete class. -/
structure Chair where
  variant : Variant
deriving DecidableEq, Repr

/-- Virtual `sitOn()`: the three overrides
`ModernChair::sitOn`, `VictorianChair::sitOn`, `ArtDecoChair::sitOn`. -/
def Chair.sitOn : Chair → String
  | ⟨.modern⟩ => "You can sit on MODERN chair\n"
  | ⟨.victorian⟩ => "You can sit on VICTORIAN chair\n"
  | ⟨.artDeco⟩ => "You can sit on ARTDECO chair\n"

/-- Abstract product `Sofa`. -/
structure Sofa where
  variant : Variant
deriving DecidableEq, Repr

/-- Virtual `layOn()`: the three overrides
`ModernSofa::layOn`, `VictorianSofa::layOn`, `ArtDecoSofa::layOn`. -/
def Sofa.layOn : Sofa → String
  | ⟨.modern⟩ => "You can lie on MODERN Sofa\n"
  | ⟨.victorian⟩ => "You can lie on VICTORIAN Sofa\n"
  | ⟨.artDeco⟩ => "You can lie on ARTDECO Sofa\n"

/-- Virtual `putAside(const Chair&)`: each override first computes
`result = collaboratorChair.sitOn()` and then returns its own fixed text
concatenated with `result` (note the source's `"ArdDeco"` spelling). -/
def Sofa.putAside (s : Sofa) (collaboratorChair : Chair) : String :=
  let result := collaboratorChair.sitOn
  match s with
  | ⟨.modern⟩ => "Now you can lie on Modern Sofa and " ++ result
  | ⟨.victorian⟩ => "Now you can lie on Victorian sofa and " ++ result
  | ⟨.artDeco⟩ => "Now you can lie on ArdDeco sofa and " ++ result

/-- Abstract product `CoffeeTable`. -/
structure CoffeeTable where
  variant : Variant
deriving DecidableEq, Repr

/-- Virtual `coffeeOnMe()`: the three coffee-table overrides. -/
def CoffeeTable.coffeeOnMe : CoffeeTable → String
  | ⟨.modern⟩ => "You're enjoying a cup of coffee on Modern Coffee Table\n"
  | ⟨.victorian⟩ => "You're enjoying a cup of coffee on Victorian Coffee Table\n"
  | ⟨.artDeco⟩ => "You're enjoying a cup of coffee on ArtDeco coffee table\n"

/-- Virtual `sittingOn(const Sofa&)`: each override first computes
`result = collaboratorSofa.layOn()` and returns `result` followed by its
own fixed text. -/
def CoffeeTable.sittingOn (t : CoffeeTable) (collaboratorSofa : Sofa) : String :=
  let result := collaboratorSofa.layOn
  match t with
  | ⟨.modern⟩ => result ++ "Enjoy your coffee on Modern Coffee Table\n"
  | ⟨.victorian⟩ => result ++ "Enjoy your coffee on Victorian Coffee table\n"
  | ⟨.artDeco⟩ => result ++ "Enjoy your coffee on ArtDeco coffee table\n"

/-- `FurnitureFactory::createChair` as implemented by the three concrete
factories: `ModernFurnitureFactory` returns `new ModernChair`, etc.  A
concrete factory is determined by its variant. -/
def FurnitureFactory.createChair : Variant → Chair
  | .modern => ⟨.modern⟩
  | .victorian => ⟨.victorian⟩
  | .artDeco => ⟨.artDeco⟩

/-- `FurnitureFactory::createSofa` as implemented by the three concrete
factories. -/
def FurnitureFactory.createSofa : Variant → Sofa
  | .modern => ⟨.modern⟩
  | .victorian => ⟨.victorian⟩
  | .artDeco => ⟨.artDeco⟩

/-- `FurnitureFactory::createCoffeeTable` as implemented by the three
concrete factories. -/
def FurnitureFactory.createCoffeeTable : Variant → CoffeeTable
  | .modern => ⟨.modern⟩
  | .victorian => ⟨.victorian⟩
  | .artDeco => ⟨.artDeco⟩

/-- `ClientCode(const FurnitureFactory&)`: creates one chair, one sofa and
one coffee table from the given factory and prints, in order, `sitOn`,
`layOn`, `putAside(*chair)`, `coffeeOnMe`, `sittingOn(*sofa)`.  We collect
the five printed descriptions as a list. -/
def ClientCode (factory : Variant) : List String :=
  let chair := FurnitureFactory.createChair factory
  let sofa := FurnitureFactory.createSofa factory
  let coffeetable := FurnitureFactory.createCoffeeTable factory
  [chair.sitOn, sofa.layOn, sofa.putAside chair,
   coffeetable.coffeeOnMe, coffeetable.sittingOn sofa]

/-- `a` occurs as a contiguous substring of `b`. -/
def substrOf (a b : String) : Prop := a.data <:+: b.data

instance (a b : String) : Decidable (substrOf a b) :=
  inferInstanceAs (Decidable (a.data <:+: b.data))

/-- Character data of `s` folded to lower case, for case-insensitive
substring matching. -/
def lowerData (s : String) : List Char := s.data.map Char.toLower

/-- The name of a variant, as a case-insensitive tag. -/
def variantTag : Variant → String
  | .modern => "modern"
  | .victorian => "victorian"
  | .artDeco => "artdeco"

/-- The tag of variant `v` occurs in `s` up to letter case. -/
def carriesTag (v : Variant) (s : String) : Prop :=
  lowerData (variantTag v) <:+: lowerData s

instance (v : Variant) (s : String) : Decidable (carriesTag v s) :=
  inferInstanceAs (Decidable (lowerData (variantTag v) <:+: lowerData s))

/-- The fixed sofa-specific text that `Sofa::putAside` places before the
collaborator chair's `sitOn()` output. -/
def sofaIntro : Variant → String
  | .modern => "Now you can lie on Modern Sofa and "
  | .victorian => "Now you can lie on Victorian sofa and "
  | .artDeco => "Now you can lie on ArdDeco sofa and "

/-- The fixed table-specific text that `CoffeeTable::sittingOn` places
after the collaborator sofa's `layOn()` output. -/
def tableOutro : Variant → String
  | .modern => "Enjoy your coffee on Modern Coffee Table\n"
  | .victorian => "Enjoy your coffee on Victorian Coffee table\n"
  | .artDeco => "Enjoy your coffee on ArtDeco coffee table\n"

/-!
Object identity and mutation.  The client code allocates products with
`new` and releases them with `delete`; the concrete product classes hold
no data members, so the heap state of an object is exhausted by its
dynamic type.  We model the heap as a list of live objects, a pointer as
an index into that list, allocation as appending, and `delete` as
clearing the slot.  Every virtual call of the source is replayed against
the store by `exec`; since no method of the source assigns to any member
or global, each call leaves the store exactly as it found it, which is
what the frame theorems below establish.
-/

/-- A heap object: a concrete product, determined by its kind and the
variant of its class. -/
inductive Obj where
  | chairObj (v : Variant)
  | sofaObj (v : Variant)
  | tableObj (v : Variant)
deriving DecidableEq, Repr

/-- The variant stamped on a heap object at construction. -/
def Obj.variantOf : Obj → Variant
  | .chairObj v => v
  | .sofaObj v => v
  | .tableObj v => v

/-- The heap: slot `i` holds the live object at address `i`, or `none`
after `delete`. -/
abbrev Store := List (Option Obj)

/-- `new`: allocate a fresh slot holding `o` and return its address. -/
def allocObj (st : Store) (o : Obj) : Nat × Store :=
  (st.length, st ++ [some o])

/-- `delete` the object at address `i`. -/
def releaseObj (st : Store) (i : Nat) : Store :=
  st.set i none

/-- A virtual call of the furniture interfaces, by receiver (and
collaborator) address. -/
inductive Call where
  | callSitOn (i : Nat)
  | callLayOn (i : Nat)
  | callCoffeeOnMe (i : Nat)
  | callPutAside (i j : Nat)
  | callSittingOn (i j : Nat)
deriving DecidableEq, Repr

/-- Replay one virtual call against the store: look up the receiver (and
the collaborator, for `putAside` / `sittingOn`), dispatch on its dynamic
type, and return the produced description together with the resulting
store.  A call through a dangling or ill-typed pointer yields `none`
(such a call does not occur in the source's client code). -/
def exec (st : Store) : Call → Option String × Store
  | .callSitOn i =>
    match st[i]? with
    | some (some (.chairObj v)) => (some (Chair.sitOn ⟨v⟩), st)
    | _ => (none, st)
  | .callLayOn i =>
    match st[i]? with
    | some (some (.sofaObj v)) => (some (Sofa.layOn ⟨v⟩), st)
    | _ => (none, st)
  | .callCoffeeOnMe i =>
    match st[i]? with
    | some (some (.tableObj v)) => (some (CoffeeTable.coffeeOnMe ⟨v⟩), st)
    | _ => (none, st)
  | .callPutAside i j =>
    match st[i]?, st[j]? with
    | some (some (.sofaObj sv)), some (some (.chairObj cv)) =>
      (some (Sofa.putAside ⟨sv⟩ ⟨cv⟩), st)
    | _, _ => (none, st)
  | .callSittingOn i j =>
    match st[i]?, st[j]? with
    | some (some (.tableObj tv)), some (some (.sofaObj sv)) =>
      (some (CoffeeTable.sittingOn ⟨tv⟩ ⟨sv⟩), st)
    | _, _ => (none, st)

/-- One of the three creation operations of a `FurnitureFactory`. -/
inductive CreateOp where
  | chairOp
  | sofaOp
  | tableOp
deriving DecidableEq, Repr

/-- The concrete object a factory of variant `f` constructs for the given
creation operation (`new ModernChair`, `new ModernSofa`, ...). -/
def CreateOp.make (f : Variant) : CreateOp → Obj
  | .chairOp => .chairObj (FurnitureFactory.createChair f).variant
  | .sofaOp => .sofaObj (FurnitureFactory.createSofa f).variant
  | .tableOp => .tableObj (FurnitureFactory.createCoffeeTable f).variant

/-- Run a creation operation of the factory of variant `f` against the
store: allocate the concrete product and return its address. -/
def createIn (f : Variant) (op : CreateOp) (st : Store) : Nat × Store :=
  allocObj st (op.make f)

/-- The `use()`-style call matching each product kind. -/
def CreateOp.useCall : CreateOp → Nat → Call
  | .chairOp => .callSitOn
  | .sofaOp => .callLayOn
  | .tableOp => .callCoffeeOnMe

/-- The description the `use()`-style call of each product kind returns
for a product of variant `f`. -/
def useDesc (f : Variant) : CreateOp → String
  | .chairOp => Chair.sitOn (FurnitureFactory.createChair f)
  | .sofaOp => Sofa.layOn (FurnitureFactory.createSofa f)
  | .tableOp => CoffeeTable.coffeeOnMe (FurnitureFactory.createCoffeeTable f)

/-- Run a sequence of creation operations against the factory of variant
`f`, calling `use()` on each product right after its creation, and
collect the results. -/
def runCreates (f : Variant) : List CreateOp → Store → List (Option String) × Store
  | [], st => ([], st)
  | op :: ops, st =>
    let created := createIn f op st
    let r := (exec created.2 (op.useCall created.1)).1
    let rest := runCreates f ops created.2
    (r :: rest.1, rest.2)

/-!
The factory-method example (`Logistics.cpp`): `Transport` with concrete
`Truck` and `Ship`, and `Logistics` whose `planDelivery` calls the
virtual `createTransport` factory method.
-/

/-- A concrete `Transport`: `Truck` or `Ship`. -/
inductive Transport where
  | truck
  | ship
deriving DecidableEq, Repr

/-- Virtual `deliver()`: the overrides `Truck::deliver`, `Ship::deliver`. -/
def Transport.deliver : Transport → String
  | .truck => "Delivering via Truck\n"
  | .ship => "Delivering via Ship\n"

/-- A concrete `Logistics` subclass: `RoadLogistics` or `ShipLogistics`. -/
inductive Logistics where
  | roadLogistics
  | shipLogistics
deriving DecidableEq, Repr

/-- The factory method `createTransport`, overridden by each subclass:
`RoadLogistics` returns `new Truck`, `ShipLogistics` returns `new Ship`. -/
def Logistics.createTransport : Logistics → Transport
  | .roadLogistics => .truck
  | .shipLogistics => .ship

/-- `Logistics::planDelivery`: calls the factory method to obtain a
transport, builds `"The order is " + transport->deliver()`, releases the
transport and returns the string. -/
def Logistics.planDelivery (l : Logistics) : String :=
  let transport := l.createTransport
  let result := "The order is " ++ transport.deliver
  result

/-!
Helper lemmas about the store.
-/

theorem getElem?_append_len {α : Type} (st : List α) (a : α) (l : List α) :
    (st ++ a :: l)[st.length]? = some a := by
  induction st with
  | nil => simp
  | cons x xs ih => simpa using ih

theorem getElem?_append_len_succ {α : Type} (st : List α) (a b : α) (l : List α) :
    (st ++ a :: b :: l)[st.length + 1]? = some b := by
  induction st with
  | nil => simp
  | cons x xs ih => simpa using ih

theorem set_append_len {α : Type} (st : List α) (a b : α) (l : List α) :
    (st ++ a :: l).set st.length b = st ++ b :: l := by
  induction st with
  | nil => rfl
  | cons x xs ih => simp [ih]

theorem exec_store_eq (st : Store) (c : Call) : (exec st c).2 = st := by
  cases c <;> (simp only [exec]; split <;> rfl)

/-- C1: for every concrete furniture factory, the products created by its
three creation operations carry the factory's variant, and the
descriptions returned by `sitOn()`, `layOn()` and `coffeeOnMe()` each
contain that variant's name (the name appears with varying letter case in
the source strings, so containment is up to case). -/
theorem family_consistency :
    ∀ v : Variant,
      (FurnitureFactory.createChair v).variant = v ∧
      (FurnitureFactory.createSofa v).variant = v ∧
      (FurnitureFactory.createCoffeeTable v).variant = v ∧
      carriesTag v (Chair.sitOn (FurnitureFactory.createChair v)) ∧
      carriesTag v (Sofa.layOn (FurnitureFactory.createSofa v)) ∧
      carriesTag v (CoffeeTable.coffeeOnMe (FurnitureFactory.createCoffeeTable v)) := by
  intro v
  cases v <;> exact ⟨rfl, rfl, rfl, by decide, by decide, by decide⟩

/-- C2 (counterexample): for the Modern factory, the sofa's own `layOn()`
description is not a substring of `putAside(*chair)`'s result, so the
result is not equal in content to `layOn() + sitOn()`. -/
theorem example_scenario_cex :
    ¬ substrOf (Sofa.layOn (FurnitureFactory.createSofa .modern))
        (Sofa.putAside (FurnitureFactory.createSofa .modern)
          (FurnitureFactory.createChair .modern)) := by
  decide

/-- C2 (amended): for the Modern factory, `putAside(*chair)` returns the
fixed text "Now you can lie on Modern Sofa and " followed by the chair's
`sitOn()` description; the chair's `use()` description is a substring of
the result, while the sofa contributes a rephrased fixed text rather than
its own `layOn()` description. -/
theorem example_scenario_amended :
    Sofa.putAside (FurnitureFactory.createSofa .modern)
        (FurnitureFactory.createChair .modern)
      = "Now you can lie on Modern Sofa and "
          ++ Chair.sitOn (FurnitureFactory.createChair .modern) ∧
    substrOf (Chair.sitOn (FurnitureFactory.createChair .modern))
      (Sofa.putAside (FurnitureFactory.createSofa .modern)
        (FurnitureFactory.createChair .modern)) :=
  ⟨rfl, by decide⟩

/-- C3: for every sofa and chair of any variants, `putAside`'s result
contains the chair's `sitOn()` description as a substring, and for every
coffee table and sofa of any variants, `sittingOn`'s result contains the
sofa's `layOn()` description as a substring. -/
theorem collaboration_composition :
    (∀ (s : Sofa) (c : Chair), substrOf c.sitOn (s.putAside c)) ∧
    (∀ (t : CoffeeTable) (s : Sofa), substrOf s.layOn (t.sittingOn s)) := by
  constructor
  · rintro ⟨sv⟩ ⟨cv⟩
    cases sv <;> cases cv <;> decide
  · rintro ⟨tv⟩ ⟨sv⟩
    cases tv <;> cases sv <;> decide

/-- C4: collaboration is total across variants: for every combination of
variants, including mixed ones, `putAside` and `sittingOn` return a
composed, non-empty description; there is no variant check and no
failure path. -/
theorem crossVariant_permissive :
    ∀ sv cv tv : Variant,
      Sofa.putAside ⟨sv⟩ ⟨cv⟩ = sofaIntro sv ++ Chair.sitOn ⟨cv⟩ ∧
      Sofa.putAside ⟨sv⟩ ⟨cv⟩ ≠ "" ∧
      CoffeeTable.sittingOn ⟨tv⟩ ⟨sv⟩ = Sofa.layOn ⟨sv⟩ ++ tableOutro tv ∧
      CoffeeTable.sittingOn ⟨tv⟩ ⟨sv⟩ ≠ "" := by
  intro sv cv tv
  cases sv <;> cases cv <;> cases tv <;> exact ⟨rfl, by decide, rfl, by decide⟩

/-- C5: the client orchestrator runs the same call sequence against any
concrete factory, and every one of the five resulting descriptions is a
non-empty string. -/
theorem clientCode_nonempty :
    ∀ factory : Variant, ∀ d ∈ ClientCode factory, d ≠ "" := by
  intro factory d hd
  cases factory <;>
    (simp only [ClientCode, List.mem_cons, List.not_mem_nil, or_false] at hd;
     rcases hd with rfl | rfl | rfl | rfl | rfl <;> decide)

/-- C5 (witness): the first description printed for the Modern factory is
among the orchestrator's outputs and is non-empty. -/
theorem clientCode_nonempty_witness :
    "You can sit on MODERN chair\n" ∈ ClientCode .modern ∧
    "You can sit on MODERN chair\n" ≠ "" :=
  ⟨by decide, clientCode_nonempty .modern _ (by decide)⟩

/-- C9: `putAside` puts the collaborator chair's text last, after a fixed
sofa-specific text, while `sittingOn` puts the collaborator sofa's text
first, before a fixed table-specific text. -/
theorem collaboration_shape :
    (∀ (s : Sofa) (c : Chair), s.putAside c = sofaIntro s.variant ++ c.sitOn) ∧
    (∀ (t : CoffeeTable) (s : Sofa), t.sittingOn s = s.layOn ++ tableOutro t.variant) := by
  constructor
  · rintro ⟨sv⟩ ⟨cv⟩
    cases sv <;> rfl
  · rintro ⟨tv⟩ ⟨sv⟩
    cases tv <;> rfl

/-- C10: every concrete `Logistics` plans a delivery equal to
"The order is " followed by the `deliver()` description of the transport
its factory method creates; in particular `RoadLogistics` and
`ShipLogistics` plan the two expected strings. -/
theorem planDelivery_composition :
    (∀ l : Logistics,
      l.planDelivery = "The order is " ++ l.createTransport.deliver) ∧
    Logistics.planDelivery .roadLogistics = "The order is Delivering via Truck\n" ∧
    Logistics.planDelivery .shipLogistics = "The order is Delivering via Ship\n" := by
  refine ⟨fun l => rfl, by decide, by decide⟩

theorem exec_use_fresh (f : Variant) (op : CreateOp) (st : Store) :
    (exec (st ++ [some (op.make f)]) (op.useCall st.length)).1
      = some (useDesc f op) := by
  cases op <;> cases f <;>
    simp [exec, CreateOp.useCall, CreateOp.make, useDesc,
      getElem?_append_len st _ []]

theorem runCreates_results (f : Variant) (ops : List CreateOp) (st : Store) :
    (runCreates f ops st).1 = ops.map (fun op => some (useDesc f op)) := by
  induction ops generalizing st with
  | nil => rfl
  | cons op ops ih =>
    simp [runCreates, createIn, allocObj, ih, exec_use_fresh]

/-- C6: collaboration mutates nothing: replaying `putAside` or
`sittingOn` against the heap returns the heap unchanged, produces the
composed description, and every subsequent `layOn()` / `sitOn()` call
returns exactly what it returned before. -/
theorem collaboration_frame (st : Store) (i j k : Nat) (sv cv tv : Variant)
    (hs : st[i]? = some (some (Obj.sofaObj sv)))
    (hc : st[j]? = some (some (Obj.chairObj cv)))
    (ht : st[k]? = some (some (Obj.tableObj tv))) :
    (exec st (Call.callPutAside i j)).1 = some (Sofa.putAside ⟨sv⟩ ⟨cv⟩) ∧
    (exec st (Call.callPutAside i j)).2 = st ∧
    (exec st (Call.callSittingOn k i)).1
      = some (CoffeeTable.sittingOn ⟨tv⟩ ⟨sv⟩) ∧
    (exec st (Call.callSittingOn k i)).2 = st ∧
    (exec (exec st (Call.callPutAside i j)).2 (Call.callLayOn i)).1
      = (exec st (Call.callLayOn i)).1 ∧
    (exec (exec st (Call.callPutAside i j)).2 (Call.callSitOn j)).1
      = (exec st (Call.callSitOn j)).1 ∧
    (exec (exec st (Call.callSittingOn k i)).2 (Call.callLayOn i)).1
      = (exec st (Call.callLayOn i)).1 := by
  refine ⟨?_, exec_store_eq st _, ?_, exec_store_eq st _, ?_, ?_, ?_⟩ <;>
    simp [exec, hs, hc, ht, exec_store_eq]

/-- C6 (witness): the frame property at a concrete three-object heap
holding a Modern sofa, chair and coffee table. -/
theorem collaboration_frame_witness :
    ([some (Obj.sofaObj .modern), some (Obj.chairObj .modern),
        some (Obj.tableObj .modern)] : Store)[0]?
        = some (some (Obj.sofaObj .modern)) ∧
    ([some (Obj.sofaObj .modern), some (Obj.chairObj .modern),
        some (Obj.tableObj .modern)] : Store)[1]?
        = some (some (Obj.chairObj .modern)) ∧
    ([some (Obj.sofaObj .modern), some (Obj.chairObj .modern),
        some (Obj.tableObj .modern)] : Store)[2]?
        = some (some (Obj.tableObj .modern)) ∧
    (exec [some (Obj.sofaObj .modern), some (Obj.chairObj .modern),
        some (Obj.tableObj .modern)] (Call.callPutAside 0 1)).2
      = [some (Obj.sofaObj .modern), some (Obj.chairObj .modern),
          some (Obj.tableObj .modern)] :=
  ⟨by decide, by decide, by decide,
    (collaboration_frame _ 0 1 2 .modern .modern .modern
      (by decide) (by decide) (by decide)).2.1⟩

/-- C7: calling a creation operation twice on the same factory allocates
two products at distinct addresses; both answer their `use()`-style call
with the same description, and releasing the first leaves the second's
answer unchanged. -/
theorem create_twice (f : Variant) (op : CreateOp) (st : Store) :
    (createIn f op st).1 ≠ (createIn f op (createIn f op st).2).1 ∧
    (exec (createIn f op (createIn f op st).2).2
        (op.useCall (createIn f op st).1)).1 = some (useDesc f op) ∧
    (exec (createIn f op (createIn f op st).2).2
        (op.useCall (createIn f op (createIn f op st).2).1)).1
      = some (useDesc f op) ∧
    (exec
        (releaseObj (createIn f op (createIn f op st).2).2
          (createIn f op st).1)
        (op.useCall (createIn f op (createIn f op st).2).1)).1
      = some (useDesc f op) := by
  refine ⟨by simp [createIn, allocObj], ?_, ?_, ?_⟩
  · cases op <;> cases f <;>
      simp [exec, createIn, allocObj, CreateOp.useCall, CreateOp.make,
        useDesc, List.append_assoc, getElem?_append_len st _ [_]]
  · have h := exec_use_fresh f op (st ++ [some (op.make f)])
    simpa [createIn, allocObj] using h
  · have e1 : (createIn f op (createIn f op st).2).2
        = st ++ [some (op.make f), some (op.make f)] := by
      simp [createIn, allocObj]
    have e3 : (createIn f op (createIn f op st).2).1 = st.length + 1 := by
      simp [createIn, allocObj]
    rw [e1, e3, releaseObj]
    have e2 : (createIn f op st).1 = st.length := rfl
    rw [e2, show st ++ [some (op.make f), some (op.make f)]
        = st ++ some (op.make f) :: [some (op.make f)] from rfl,
      set_append_len st (some (op.make f)) none]
    cases op <;>
      (simp only [CreateOp.useCall, exec];
       rw [getElem?_append_len_succ];
       rfl)

/-- C8: the factory operations share no state: running any sequence of
creation operations against any heap, each call's `use()` result is a
function of the factory's variant and the operation alone — independent
of order, repetition and prior heap contents — and each call stores a
product stamped with the factory's variant. -/
theorem factory_stateless (f : Variant) (ops : List CreateOp) (st : Store) :
    (runCreates f ops st).1 = ops.map (fun op => some (useDesc f op)) ∧
    ∀ (op : CreateOp) (st' : Store),
      ((createIn f op st').2)[(createIn f op st').1]?
        = some (some (op.make f)) ∧
      (op.make f).variantOf = f := by
  refine ⟨runCreates_results f ops st, fun op st' => ⟨?_, ?_⟩⟩
  · simp only [createIn, allocObj]
    exact getElem?_append_len st' (some (op.make f)) []
  · cases op <;> cases f <;> rfl
